import Mathlib

/-!
Verification development for the InSituCore desktop application
(`src/app/main.py` and `src/utils/app_visuals.py`).

The Python code is shallowly embedded: Python strings become `String`
(operated on through their `.data` character lists, which matches the
code-point semantics of Python `str`), Python lists become `List`,
Python `None`/optional values become `Option`, the JSON metadata payload
becomes an association list, the filesystem becomes an existence
predicate `String → Bool`, and the mutable busy-tracker state of the
main window becomes an explicit state record with a step function.
-/

namespace InSituCore

/-! ## Python string primitives -/

/-- Python `s.startswith(p)`: the characters of `p` are a prefix of the
characters of `s`. -/
def pyStartsWith (s p : String) : Bool :=
  p.data.isPrefixOf s.data

/-- Python `s.endswith(p)`: the characters of `p` are a suffix of the
characters of `s`. -/
def pyEndsWith (s p : String) : Bool :=
  p.data.isSuffixOf s.data

/-- Python `s[:-1]`: drop the final character. -/
def pyDropLast (s : String) : String :=
  ⟨s.data.dropLast⟩

/-- ASCII whitespace stripped by Python `str.strip()` (the Unicode
whitespace code points, irrelevant to the analysed inputs, are omitted). -/
def isPySpace (c : Char) : Bool :=
  c = ' ' || c = '\t' || c = '\n' || c = '\r' || c = '\x0b' || c = '\x0c'

/-- Python `s.strip()`: remove leading and trailing whitespace. -/
def pyStrip (s : String) : String :=
  ⟨((s.data.dropWhile isPySpace).reverse.dropWhile isPySpace).reverse⟩

/-- Occurrence of `sub` anywhere in `l` (Python `sub in line` on the
character lists). -/
def hasInfix : List Char → List Char → Bool
  | [], sub => sub.isPrefixOf ([] : List Char)
  | l@(_ :: t), sub => sub.isPrefixOf l || hasInfix t sub

/-- Python `token in line` for strings. -/
def pyContains (line token : String) : Bool :=
  hasInfix line.data token.data

/-- Lexicographic strict order on character lists, by code point: the
order Python uses to compare and sort strings. -/
def charListLt : List Char → List Char → Bool
  | [], [] => false
  | [], _ :: _ => true
  | _ :: _, [] => false
  | a :: as, b :: bs => if a < b then true else if b < a then false else charListLt as bs

/-- Python `a < b` on strings. -/
def pyStrLt (a b : String) : Bool :=
  charListLt a.data b.data

/-! ## Key Inference Engine (`_infer_default_color`, src/utils/app_visuals.py lines 19-64)

The function receives the dataset (only its ordered column list
`adata.obs.columns` matters), an optional parsed metadata payload, a
static fallback and an optional preferred metadata field.  The file
handling of `cluster_info_path` collapses into the `Option Payload`
argument: `none` covers a missing path, a non-file path and a JSON
decode error (all of which leave `cluster_key = None` in the source),
`some payload` covers a successfully parsed JSON object. -/

/-- A JSON value stored in the metadata payload, as `_to_candidates`
distinguishes them: a string, a list (each element represented by its
Python `str()` rendering), or anything else. -/
inductive PyVal where
  | str (s : String)
  | list (items : List String)
  | other
deriving DecidableEq

/-- The parsed metadata sidecar: a JSON object, i.e. a finite map from
field names to values. -/
abbrev Payload := List (String × PyVal)

/-- Python `payload.get(k)`. -/
def lookupPayload (payload : Payload) (k : String) : Option PyVal :=
  payload.lookup k

/-- `_to_candidates(value)` (lines 25-30): a list yields its stripped
non-empty entries in order, a string with non-blank strip yields a
singleton, everything else yields nothing. -/
def toCandidates : Option PyVal → List String
  | some (.list items) => (items.map pyStrip).filter (fun s => s != "")
  | some (.str s) => if pyStrip s != "" then [pyStrip s] else []
  | some .other => []
  | none => []

/-- Candidate collection of `_infer_default_color` (lines 37-43): with a
truthy `preferred_key`, candidates from that field, followed — whenever
the field name ends in `"s"` — by candidates from the singular field
name; if nothing was collected, candidates from the generic
`"cluster_key"` field. -/
def candidateKeys (payload : Payload) (preferred : Option String) : List String :=
  let fromPreferred :=
    match preferred with
    | some pk =>
        if pk != "" then
          toCandidates (lookupPayload payload pk) ++
            (if pyEndsWith pk "s" then toCandidates (lookupPayload payload (pyDropLast pk)) else [])
        else []
    | none => []
  if fromPreferred.isEmpty then
    fromPreferred ++ toCandidates (lookupPayload payload "cluster_key")
  else fromPreferred

/-- The candidate loop of lines 44-47: the first candidate present in
the column list (Python `break` on the first hit), guarded by the
metadata being available at all. -/
def matchedCandidate (info : Option Payload) (preferred : Option String)
    (columns : List String) : Option String :=
  match info with
  | none => none
  | some payload => (candidateKeys payload preferred).find? (fun c => columns.contains c)

/-- Python `sorted(l)[-1]` for a non-empty list of strings: the
lexicographic maximum (`""` for the empty list, a case the source never
reaches because it is guarded by non-emptiness). -/
def lexLast : List String → String
  | [] => ""
  | h :: t => t.foldl (fun a c => if pyStrLt a c then c else a) h

/-- The fallback chain of lines 54-64: the lexicographically last
`"leiden_"`-prefixed column if any, else the static fallback if it is a
column, else the first column, else the static fallback verbatim. -/
def fallbackColor (columns : List String) (fallback : String) : String :=
  if (columns.filter (fun c => pyStartsWith c "leiden_")).isEmpty then
    if columns.contains fallback then fallback
    else
      match columns with
      | [] => fallback
      | c :: _ => c
  else lexLast (columns.filter (fun c => pyStartsWith c "leiden_"))

/-- `_infer_default_color` (lines 19-64): the matched metadata candidate
when truthy and present among the columns (line 51), otherwise the
fallback chain. -/
def inferDefaultColor (columns : List String) (info : Option Payload)
    (fallback : String) (preferred : Option String) : String :=
  match matchedCandidate info preferred columns with
  | some ck => if ck != "" && columns.contains ck then ck else fallbackColor columns fallback
  | none => fallbackColor columns fallback

/-- Candidate collection as claim C6 words it: the singular form of a
plural field name is consulted only when the plural field yields no
candidates.  This definition follows the words of the claim, not the
source; it exists to be compared with `candidateKeys`. -/
def candidateKeysClaimed (payload : Payload) (preferred : Option String) : List String :=
  let fromPreferred :=
    match preferred with
    | some pk =>
        if pk != "" then
          let plural := toCandidates (lookupPayload payload pk)
          if plural.isEmpty then
            if pyEndsWith pk "s" then toCandidates (lookupPayload payload (pyDropLast pk)) else []
          else plural
        else []
    | none => []
  if fromPreferred.isEmpty then
    fromPreferred ++ toCandidates (lookupPayload payload "cluster_key")
  else fromPreferred

/-- Key inference as claim C6 words it, differing from the source only
in the candidate-collection step (comparison definition, not from the
source). -/
def inferDefaultColorClaimed (columns : List String) (info : Option Payload)
    (fallback : String) (preferred : Option String) : String :=
  match
    (match info with
     | none => none
     | some payload => (candidateKeysClaimed payload preferred).find? (fun c => columns.contains c))
  with
  | some ck => if ck != "" && columns.contains ck then ck else fallbackColor columns fallback
  | none => fallbackColor columns fallback

/-! ## Output Discovery (`_collect_existing_pipeline_outputs`, src/app/main.py lines 732-750)

Filesystem paths are modelled as plain strings (`Path` rendered with
`/` separators) and the filesystem as an existence predicate. -/

/-- The fixed candidate list of lines 737-747, resolved under the output
directory. -/
def pipelineArtifactCandidates (outDir : String) : List String :=
  [outDir ++ "/data/raw.h5ad",
   outDir ++ "/data/clustered.h5ad",
   outDir ++ "/data/cluster_info.json",
   outDir ++ "/data/markers_by_cluster.csv",
   outDir ++ "/xenium_qc/summary_by_run.csv",
   outDir ++ "/xenium_qc/gene_detection_overall.csv",
   outDir ++ "/plots/spatial.png",
   outDir ++ "/plots/umap.png",
   outDir ++ "/plots/compartments.png"]

/-- `_collect_existing_pipeline_outputs(out_dir, karospace_path)`: the
fixed candidates, plus the KaroSpace path when given (lines 748-749),
filtered to those that exist (line 750). -/
def collectExistingPipelineOutputs (fsExists : String → Bool) (outDir : String)
    (karospacePath : Option String) : List String :=
  (pipelineArtifactCandidates outDir ++ karospacePath.toList).filter fsExists

/-- The artifact set as claim C2 words it: the source candidates and, as
a fourth named plot image, the gene-expression dotplot (the path the
rest of the application uses for that plot, main.py line 1259).  This
definition follows the words of the claim, not the source; it exists to
be compared with `pipelineArtifactCandidates`.  The claimed "QC images"
have no fixed relative paths (they are an arbitrary family of PNG files
globbed at load time, main.py line 1182) and are represented here by a
sample QC image path. -/
def claimedArtifactCandidates (outDir : String) (qcImage : String) : List String :=
  pipelineArtifactCandidates outDir ++
    [outDir ++ "/xenium_qc/" ++ qcImage, outDir ++ "/plots/gene_expression_dotplot.png"]

/-! ## Overwrite confirmation (`_confirm_overwrite`, src/app/main.py lines 752-774) -/

/-- Outcome of `_confirm_overwrite`: either the function returned `True`
immediately without constructing the message box (line 759-760), or it
presented the modal dialog and returned whether the user pressed Yes
(lines 766-774). -/
inductive ConfirmOutcome where
  | immediateYes
  | dialogResult (acceptedYes : Bool)
deriving DecidableEq

/-- `_confirm_overwrite(paths, ...)`, with the user interaction
abstracted as the Boolean `userAcceptsYes`. -/
def confirmOverwrite (paths : List String) (userAcceptsYes : Bool) : ConfirmOutcome :=
  if paths.isEmpty then .immediateYes else .dialogResult userAcceptsYes

/-- The Boolean the caller receives from `_confirm_overwrite`. -/
def confirmResult : ConfirmOutcome → Bool
  | .immediateYes => true
  | .dialogResult b => b

/-! ## Busy/Activity Tracker (`_enter_busy` / `_leave_busy`, src/app/main.py lines 776-795)

The mutable window fields touched by the two methods become a state
record.  `_set_activity_stage` elides the label to the widget width for
display; the state records the full text (the elision is presentation
only).  The Python counter is an unbounded integer, embedded as `Int`
so that non-negativity is a statement about the code rather than about
the carrier type. -/

structure BusyState where
  counter : Int
  hasError : Bool
  tick : Nat
  timerOn : Bool
  baseText : String
  stageLabel : String
  chip : String
  glyph : String
deriving DecidableEq

/-- The window state right after `__init__` (main.py lines 91-95 and the
initial widget texts at lines 225-236). -/
def initBusy : BusyState :=
  { counter := 0, hasError := false, tick := 0, timerOn := false,
    baseText := "Running", stageLabel := "Idle", chip := "Ready", glyph := "   " }

/-- `_enter_busy(stage_text)` (lines 776-784). -/
def enterBusy (st : BusyState) (stageText : String) : BusyState :=
  let st :=
    if st.counter = 0 then
      { st with hasError := false, tick := 0, timerOn := true }
    else st
  { st with
      counter := st.counter + 1
      baseText := stageText
      stageLabel := stageText
      chip := "Running" }

/-- `_leave_busy(failed)` (lines 786-795). -/
def leaveBusy (st : BusyState) (failed : Bool) : BusyState :=
  let st := if failed then { st with hasError := true } else st
  let st := if st.counter > 0 then { st with counter := st.counter - 1 } else st
  if st.counter = 0 then
    { st with
        timerOn := false
        glyph := "   "
        stageLabel := "Idle"
        chip := if st.hasError then "Error" else "Ready" }
  else st

/-- One call into the tracker. -/
inductive BusyOp where
  | enter (stage : String)
  | leave (failed : Bool)

/-- Apply one tracker call. -/
def busyStep (st : BusyState) : BusyOp → BusyState
  | .enter s => enterBusy st s
  | .leave b => leaveBusy st b

/-- Apply a sequence of tracker calls in order. -/
def busyRun (st : BusyState) : List BusyOp → BusyState
  | [] => st
  | op :: ops => busyRun (busyStep st op) ops

/-! ## Stage Classifier (`_update_stage_from_log`, src/app/main.py lines 814-834) -/

/-- The structured stage-announcement marker. -/
def stepMarker : String := "STEP: "

/-- The ordered (substring, label) table of lines 821-828. -/
def stageMap : List (String × String) :=
  [("Loading run:", "Loading runs"),
   ("Saved raw AnnData:", "Preparing QC"),
   ("Saved QC outputs:", "QC complete"),
   ("Running MANA weighted aggregation...", "MANA aggregation"),
   ("Saved clustered AnnData:", "Saving clustered data"),
   ("Exporting KaroSpace HTML...", "Exporting KaroSpace")]

/-- The scan loop of lines 829-833: the first table entry whose token
occurs in the line wins; no entry matches, no stage change. -/
def stageScan : List (String × String) → String → Option String
  | [], _ => none
  | (token, stage) :: rest, line =>
      if pyContains line token then some stage else stageScan rest line

/-- `_update_stage_from_log(line)`, returning the stage label it sets,
if any.  On a line starting with the marker, Python removes the first
occurrence of the marker (`line.replace("STEP: ", "", 1)`); under the
guard that occurrence is the leading prefix, so the replacement is
dropping the first six characters, then stripping (line 816). -/
def updateStageFromLog (line : String) : Option String :=
  if pyStartsWith line stepMarker then
    some (pyStrip ⟨line.data.drop stepMarker.data.length⟩)
  else
    stageScan stageMap line

/-! ## Recent-Project Registry (`_update_recent`, src/app/main.py lines 1486-1501) -/

/-- A persisted recent project (main.py lines 32-37). -/
structure RecentProject where
  data_dir : String
  out_dir : String
  karospace_html : Option String
  last_used : String
deriving DecidableEq

/-- Two entries clash when their (data_dir, out_dir) pair coincides. -/
def samePair (p q : RecentProject) : Prop :=
  p.data_dir = q.data_dir ∧ p.out_dir = q.out_dir

instance (p q : RecentProject) : Decidable (samePair p q) := by
  unfold samePair
  infer_instance

/-- `_update_recent`: the registry-list transformation of lines
1486-1499 (the inputs read from the line edits, the timestamp and the
persistence side effect become parameters and the returned list).  When
either directory is blank the method returns without touching the list
(lines 1489-1490); otherwise entries with the same pair are filtered
out (lines 1494-1497) and the new entry appended (line 1498). -/
def updateRecent (projects : List RecentProject) (dataDir outDir : String)
    (karospace : Option String) (now : String) : List RecentProject :=
  if dataDir = "" ∨ outDir = "" then projects
  else
    (projects.filter (fun p => !(p.data_dir == dataDir && p.out_dir == outDir))) ++
      [⟨dataDir, outDir, karospace, now⟩]

/-! ## Job Runner signal wiring (`_run_pipeline` lines 994-1001 and
`_run_visual_process` lines 1428-1456, src/app/main.py)

Each started `QProcess` has handlers connected to some of its signals;
the embedding records which signals receive a handler. -/

/-- The `QProcess` signals relevant to job completion. -/
inductive ProcSignal where
  | readyReadStandardOutput
  | finished
  | errorOccurred
deriving DecidableEq

/-- The signals `_run_pipeline` connects on the pipeline process
(main.py lines 999-1000). -/
def runPipelineConnections : List ProcSignal :=
  [.readyReadStandardOutput, .finished]

/-- The signals `_run_visual_process` connects on a plot process
(main.py lines 1454-1455). -/
def runVisualProcessConnections : List ProcSignal :=
  [.readyReadStandardOutput, .finished]

/-! ## Helper lemmas on the lexicographic string order -/

theorem charListLt_irrefl (l : List Char) : charListLt l l = false := by
  induction l with
  | nil => rfl
  | cons a as ih => simp [charListLt, lt_irrefl, ih]

theorem charListLt_trans {l₁ l₂ l₃ : List Char}
    (h₁ : charListLt l₁ l₂ = true) (h₂ : charListLt l₂ l₃ = true) :
    charListLt l₁ l₃ = true := by
  induction l₁ generalizing l₂ l₃ with
  | nil =>
    cases l₂ with
    | nil => simp [charListLt] at h₁
    | cons b bs =>
      cases l₃ with
      | nil => simp [charListLt] at h₂
      | cons c cs => simp [charListLt]
  | cons a as ih =>
    cases l₂ with
    | nil => simp [charListLt] at h₁
    | cons b bs =>
      cases l₃ with
      | nil => simp [charListLt] at h₂
      | cons c cs =>
        simp only [charListLt] at h₁ h₂ ⊢
        by_cases hab : a < b
        · by_cases hbc : b < c
          · simp [lt_trans hab hbc]
          · by_cases hcb : c < b
            · simp [hbc, hcb] at h₂
            · have hbceq : b = c := le_antisymm (not_lt.mp hcb) (not_lt.mp hbc)
              subst hbceq
              simp [hab]
        · by_cases hba : b < a
          · simp [hab, hba] at h₁
          · have habeq : a = b := le_antisymm (not_lt.mp hba) (not_lt.mp hab)
            subst habeq
            simp only [lt_irrefl, if_false] at h₁
            by_cases hac : a < c
            · simp [hac]
            · by_cases hca : c < a
              · simp [hac, hca] at h₂
              · simp only [hac, hca, if_false] at h₂ ⊢
                exact ih h₁ h₂

theorem charListLt_total {l₁ l₂ : List Char} (h : charListLt l₁ l₂ = false) :
    charListLt l₂ l₁ = true ∨ l₂ = l₁ := by
  induction l₁ generalizing l₂ with
  | nil =>
    cases l₂ with
    | nil => right; rfl
    | cons b bs => simp [charListLt] at h
  | cons a as ih =>
    cases l₂ with
    | nil => left; simp [charListLt]
    | cons b bs =>
      simp only [charListLt] at h ⊢
      by_cases hab : a < b
      · simp [hab] at h
      · by_cases hba : b < a
        · left; simp [hba]
        · have habeq : a = b := le_antisymm (not_lt.mp hba) (not_lt.mp hab)
          subst habeq
          simp only [lt_irrefl, if_false] at h ⊢
          rcases ih h with ht | he
          · left; exact ht
          · right; rw [he]

theorem pyStrLt_irrefl (s : String) : pyStrLt s s = false :=
  charListLt_irrefl s.data

theorem pyStrLt_trans {a b c : String}
    (h₁ : pyStrLt a b = true) (h₂ : pyStrLt b c = true) : pyStrLt a c = true :=
  charListLt_trans h₁ h₂

theorem pyStrLt_total {a b : String} (h : pyStrLt a b = false) :
    pyStrLt b a = true ∨ b = a := by
  rcases charListLt_total h with ht | he
  · left; exact ht
  · right
    cases a with
    | mk da =>
      cases b with
      | mk db => exact congrArg String.mk he

theorem pyStrLt_ge_trans {a b c : String}
    (h₁ : pyStrLt a b = false) (h₂ : pyStrLt b c = false) : pyStrLt a c = false := by
  by_contra hcon
  have hac : pyStrLt a c = true := by
    cases hval : pyStrLt a c
    · exact absurd hval hcon
    · rfl
  rcases pyStrLt_total h₁ with hba | hba
  · have : pyStrLt b c = true := pyStrLt_trans hba hac
    rw [h₂] at this
    exact Bool.false_ne_true this
  · rw [hba] at h₂
    rw [h₂] at hac
    exact Bool.false_ne_true hac

theorem lexLast_foldl_mem (t : List String) (h : String) :
    t.foldl (fun a c => if pyStrLt a c then c else a) h ∈ h :: t := by
  induction t generalizing h with
  | nil => simp
  | cons c t ih =>
    simp only [List.foldl_cons]
    rcases List.mem_cons.mp (ih (if pyStrLt h c then c else h)) with hm | hm
    · rw [hm]
      by_cases hlt : pyStrLt h c <;> simp [hlt]
    · exact List.mem_cons_of_mem _ (List.mem_cons_of_mem _ hm)

theorem pyStrLt_fold_step_acc (acc c : String) :
    pyStrLt (if pyStrLt acc c then c else acc) acc = false := by
  by_cases hlt : pyStrLt acc c
  · simp only [hlt, if_true]
    by_contra hcon
    have hca : pyStrLt c acc = true := by
      cases hval : pyStrLt c acc
      · exact absurd hval hcon
      · rfl
    have := pyStrLt_trans hlt hca
    rw [pyStrLt_irrefl] at this
    exact Bool.false_ne_true this
  · simp only [hlt, if_false]
    exact pyStrLt_irrefl acc

theorem pyStrLt_fold_step_c (acc c : String) :
    pyStrLt (if pyStrLt acc c then c else acc) c = false := by
  by_cases hlt : pyStrLt acc c
  · simp only [hlt, if_true]
    exact pyStrLt_irrefl c
  · simp only [hlt, if_false]
    exact Bool.of_not_eq_true hlt

theorem lexLast_foldl_ge_acc (t : List String) :
    ∀ acc, pyStrLt (t.foldl (fun a c => if pyStrLt a c then c else a) acc) acc = false := by
  induction t with
  | nil => intro acc; exact pyStrLt_irrefl acc
  | cons c t ih =>
    intro acc
    simp only [List.foldl_cons]
    exact pyStrLt_ge_trans (ih (if pyStrLt acc c then c else acc)) (pyStrLt_fold_step_acc acc c)

theorem lexLast_foldl_not_lt (t : List String) (acc x : String)
    (hx : x = acc ∨ x ∈ t) :
    pyStrLt (t.foldl (fun a c => if pyStrLt a c then c else a) acc) x = false := by
  induction t generalizing acc with
  | nil =>
    rcases hx with rfl | hmem
    · exact pyStrLt_irrefl x
    · simp at hmem
  | cons c t ih =>
    simp only [List.foldl_cons]
    rcases hx with rfl | hmem
    · exact pyStrLt_ge_trans (lexLast_foldl_ge_acc t _) (pyStrLt_fold_step_acc x c)
    · rcases List.mem_cons.mp hmem with rfl | hmem'
      · exact pyStrLt_ge_trans (lexLast_foldl_ge_acc t _) (pyStrLt_fold_step_c acc x)
      · exact ih _ (Or.inr hmem')

theorem lexLast_mem {l : List String} (h : l ≠ []) : lexLast l ∈ l := by
  cases l with
  | nil => exact absurd rfl h
  | cons hd tl => exact lexLast_foldl_mem tl hd

theorem lexLast_not_lt {l : List String} {x : String} (hx : x ∈ l) :
    pyStrLt (lexLast l) x = false := by
  cases l with
  | nil => simp at hx
  | cons hd tl =>
    rcases List.mem_cons.mp hx with rfl | hmem
    · exact lexLast_foldl_not_lt tl x x (Or.inl rfl)
    · exact lexLast_foldl_not_lt tl hd x (Or.inr hmem)

/-! ## Key Inference theorems -/

theorem fallbackColor_mem {columns : List String} (fallback : String) (h : columns ≠ []) :
    fallbackColor columns fallback ∈ columns := by
  unfold fallbackColor
  by_cases hf : (columns.filter (fun c => pyStartsWith c "leiden_")).isEmpty = true
  · rw [if_pos hf]
    by_cases hc : columns.contains fallback = true
    · rw [if_pos hc]
      exact List.mem_of_elem_eq_true hc
    · rw [if_neg hc]
      cases columns with
      | nil => exact absurd rfl h
      | cons c cs => exact List.mem_cons_self c cs
  · rw [if_neg hf]
    have hne : columns.filter (fun c => pyStartsWith c "leiden_") ≠ [] := by
      intro heq
      apply hf
      rw [heq]
      rfl
    exact List.mem_of_mem_filter (lexLast_mem hne)

/-- C1: with a non-empty column set `_infer_default_color` always
returns a member of the column set; only with an empty column set does
it return the static fallback without that membership guarantee (and
then it returns the fallback verbatim). -/
theorem infer_default_color_membership :
    (∀ (columns : List String) (info : Option Payload) (fallback : String)
        (preferred : Option String), columns ≠ [] →
        inferDefaultColor columns info fallback preferred ∈ columns)
    ∧ (∀ (info : Option Payload) (fallback : String) (preferred : Option String),
        inferDefaultColor [] info fallback preferred = fallback) := by
  constructor
  · intro columns info fallback preferred h
    unfold inferDefaultColor
    cases hmc : matchedCandidate info preferred columns with
    | none => exact fallbackColor_mem fallback h
    | some ck =>
      show (if (ck != "" && columns.contains ck) = true then ck
            else fallbackColor columns fallback) ∈ columns
      by_cases hck : (ck != "" && columns.contains ck) = true
      · rw [if_pos hck]
        exact List.mem_of_elem_eq_true (Bool.and_eq_true (ck != "") (columns.contains ck) ▸ hck).2
      · rw [if_neg hck]
        exact fallbackColor_mem fallback h
  · intro info fallback preferred
    have hmc : matchedCandidate info preferred [] = none := by
      cases info with
      | none => rfl
      | some payload =>
        unfold matchedCandidate
        apply List.find?_eq_none.mpr
        intro c _
        simp
    unfold inferDefaultColor
    rw [hmc]
    rfl

/-- Witness for C1 at a concrete one-column dataset. -/
theorem infer_default_color_membership_witness :
    inferDefaultColor ["sample_id"] none "leiden" none ∈ ["sample_id"] :=
  infer_default_color_membership.1 ["sample_id"] none "leiden" none (by decide)

/-- C7: when no metadata candidate matches the columns, the result is
the lexicographically last (no column with the prefix is strictly
greater) column carrying the `"leiden_"` prefix whenever one exists; in
particular on columns `leiden_0.5`, `leiden_1.0`, `sample_id` with empty
metadata, no preferred field and fallback `leiden`, the result is
`leiden_1.0`. -/
theorem infer_default_color_leiden_last :
    (∀ (columns : List String) (info : Option Payload) (fallback : String)
        (preferred : Option String),
      matchedCandidate info preferred columns = none →
      columns.filter (fun c => pyStartsWith c "leiden_") ≠ [] →
      inferDefaultColor columns info fallback preferred
          = lexLast (columns.filter (fun c => pyStartsWith c "leiden_"))
        ∧ ∀ c ∈ columns, pyStartsWith c "leiden_" = true →
            pyStrLt (inferDefaultColor columns info fallback preferred) c = false)
    ∧ inferDefaultColor ["leiden_0.5", "leiden_1.0", "sample_id"] (some []) "leiden" none
        = "leiden_1.0" := by
  constructor
  · intro columns info fallback preferred hmc hne
    have hempty : ¬ (columns.filter (fun c => pyStartsWith c "leiden_")).isEmpty = true := by
      intro hcon
      cases hfl : columns.filter (fun c => pyStartsWith c "leiden_") with
      | nil => exact hne hfl
      | cons a as =>
        rw [hfl] at hcon
        simp at hcon
    have heq : inferDefaultColor columns info fallback preferred
        = lexLast (columns.filter (fun c => pyStartsWith c "leiden_")) := by
      unfold inferDefaultColor
      rw [hmc]
      show fallbackColor columns fallback = _
      unfold fallbackColor
      rw [if_neg hempty]
    refine ⟨heq, ?_⟩
    intro c hc hpre
    rw [heq]
    exact lexLast_not_lt (List.mem_filter.mpr ⟨hc, hpre⟩)
  · decide

/-- Witness for C7 at a concrete column set with one prefixed column. -/
theorem infer_default_color_leiden_last_witness :
    inferDefaultColor ["leiden_0.5", "sample_id"] none "leiden" none
      = lexLast (["leiden_0.5", "sample_id"].filter (fun c => pyStartsWith c "leiden_")) :=
  (infer_default_color_leiden_last.1 ["leiden_0.5", "sample_id"] none "leiden" none
    (by decide) (by decide)).1

/-- C6 (amended): with a preferred field whose name ends in a plural
`"s"`, the candidates of the singular field are appended after the
candidates of the plural field unconditionally — the singular form is
always tried, not only when the plural field yields nothing; the
concrete example of the claim still holds. -/
theorem candidate_keys_plural_appends_singular :
    (∀ (payload : Payload) (pk : String) (p s : List String),
        pk ≠ "" →
        pyEndsWith pk "s" = true →
        toCandidates (lookupPayload payload pk) = p →
        toCandidates (lookupPayload payload (pyDropLast pk)) = s →
        p ≠ [] →
        candidateKeys payload (some pk) = p ++ s)
    ∧ inferDefaultColor ["region", "other"]
        (some [("compartment_key", PyVal.str "region")]) "leiden" (some "compartment_keys")
        = "region" := by
  constructor
  · intro payload pk p s hpk hends hp hs hpne
    have hbne : (pk != "") = true := bne_iff_ne.mpr hpk
    show (let fromPreferred :=
            if (pk != "") = true then
              toCandidates (lookupPayload payload pk) ++
                (if pyEndsWith pk "s" = true then
                  toCandidates (lookupPayload payload (pyDropLast pk)) else [])
            else []
          if fromPreferred.isEmpty = true then
            fromPreferred ++ toCandidates (lookupPayload payload "cluster_key")
          else fromPreferred) = p ++ s
    simp only
    rw [if_pos hbne, if_pos hends, hp, hs]
    have hne : ¬ (p ++ s).isEmpty = true := by
      cases p with
      | nil => exact absurd rfl hpne
      | cons a as => simp
    rw [if_neg hne]
  · decide

/-- Witness for the amended C6 at the separating metadata payload. -/
theorem candidate_keys_plural_appends_singular_witness :
    candidateKeys
        [("compartment_keys", PyVal.list ["foo"]), ("compartment_key", PyVal.str "region")]
        (some "compartment_keys") = ["foo"] ++ ["region"] :=
  candidate_keys_plural_appends_singular.1
    [("compartment_keys", PyVal.list ["foo"]), ("compartment_key", PyVal.str "region")]
    "compartment_keys" ["foo"] ["region"]
    (by decide) (by decide) (by decide) (by decide) (by decide)

/-- Counterexample to C6 as stated: the plural field yields the
candidate `"foo"`, yet the source still consults the singular field and
returns its candidate `"region"`, while the behaviour the claim words
(`inferDefaultColorClaimed`) would return the first column `"alpha"`. -/
theorem candidate_keys_counterexample :
    inferDefaultColor ["alpha", "region"]
        (some [("compartment_keys", PyVal.list ["foo"]), ("compartment_key", PyVal.str "region")])
        "leiden" (some "compartment_keys") = "region"
    ∧ toCandidates (lookupPayload
        [("compartment_keys", PyVal.list ["foo"]), ("compartment_key", PyVal.str "region")]
        "compartment_keys") = ["foo"]
    ∧ inferDefaultColorClaimed ["alpha", "region"]
        (some [("compartment_keys", PyVal.list ["foo"]), ("compartment_key", PyVal.str "region")])
        "leiden" (some "compartment_keys") = "alpha" := by
  decide

/-! ## Busy/Activity Tracker theorems -/

theorem enterBusy_counter (st : BusyState) (s : String) :
    (enterBusy st s).counter = st.counter + 1 := by
  unfold enterBusy
  by_cases h : st.counter = 0 <;> simp [h]

theorem enterBusy_hasError_of_ne (st : BusyState) (s : String) (h : st.counter ≠ 0) :
    (enterBusy st s).hasError = st.hasError := by
  unfold enterBusy
  rw [if_neg h]

theorem leaveBusy_counter (st : BusyState) (b : Bool) :
    (leaveBusy st b).counter = if 0 < st.counter then st.counter - 1 else st.counter := by
  unfold leaveBusy
  cases b <;> by_cases hc : st.counter > 0 <;> simp [hc] <;> split <;> simp

theorem leaveBusy_hasError_true (st : BusyState) (b : Bool) (he : st.hasError = true) :
    (leaveBusy st b).hasError = true := by
  unfold leaveBusy
  cases b <;> by_cases hc : st.counter > 0 <;> simp [hc, he] <;> split <;> simp [he]

theorem busy_sticky_aux : ∀ (ops : List BusyOp) (st : BusyState),
    st.hasError = true → 0 < st.counter →
    (busyRun st ops).hasError = true ∨
      ∃ pre, pre <+: ops ∧ (busyRun st pre).counter = 0 ∧ (busyRun st pre).hasError = true := by
  intro ops
  induction ops with
  | nil =>
    intro st he _
    left
    exact he
  | cons op rest ih =>
    intro st he hc
    cases op with
    | enter s =>
      have he2 : (enterBusy st s).hasError = true := by
        rw [enterBusy_hasError_of_ne st s (by omega)]
        exact he
      have hc2 : 0 < (enterBusy st s).counter := by
        rw [enterBusy_counter]
        omega
      rcases ih (enterBusy st s) he2 hc2 with h | ⟨pre, hpre, hzero, herr⟩
      · left
        exact h
      · right
        obtain ⟨tl, htl⟩ := hpre
        refine ⟨BusyOp.enter s :: pre, ⟨tl, ?_⟩, hzero, herr⟩
        rw [List.cons_append, htl]
    | leave b =>
      have he2 : (leaveBusy st b).hasError = true := leaveBusy_hasError_true st b he
      by_cases hz : (leaveBusy st b).counter = 0
      · right
        exact ⟨[BusyOp.leave b], ⟨rest, rfl⟩, hz, he2⟩
      · have hcc := leaveBusy_counter st b
        rw [if_pos hc] at hcc
        have hc2 : 0 < (leaveBusy st b).counter := by omega
        rcases ih (leaveBusy st b) he2 hc2 with h | ⟨pre, hpre, hzero, herr⟩
        · left
          exact h
        · right
          obtain ⟨tl, htl⟩ := hpre
          refine ⟨BusyOp.leave b :: pre, ⟨tl, ?_⟩, hzero, herr⟩
          rw [List.cons_append, htl]

/-- C4: once a failed leave is observed while jobs are outstanding, the
error flag stays set at least until the counter returns to zero (along
any continuation, either the flag is still set at the end, or some
prefix drained the counter to zero with the flag still set at that
point); and the concrete sequence enter, enter, leave(failed), leave(ok)
ends drained with the sticky error reported on the status chip. -/
theorem busy_error_sticky :
    (∀ (st : BusyState) (ops : List BusyOp),
        st.hasError = true → 0 < st.counter →
        (busyRun st ops).hasError = true ∨
          ∃ pre, pre <+: ops ∧ (busyRun st pre).counter = 0 ∧ (busyRun st pre).hasError = true)
    ∧ ((busyRun initBusy [.enter "A", .enter "B", .leave true, .leave false]).counter = 0
        ∧ (busyRun initBusy [.enter "A", .enter "B", .leave true, .leave false]).hasError = true
        ∧ (busyRun initBusy [.enter "A", .enter "B", .leave true, .leave false]).chip = "Error"
        ∧ (busyRun initBusy [.enter "A", .enter "B", .leave true, .leave false]).stageLabel
            = "Idle") := by
  constructor
  · intro st ops he hc
    exact busy_sticky_aux ops st he hc
  · decide

/-- Witness for C4 at a concrete errored two-job state. -/
theorem busy_error_sticky_witness :
    (busyRun ⟨2, true, 0, true, "Running", "x", "Running", "o-/"⟩ [BusyOp.leave false]).hasError
        = true ∨
      ∃ pre, pre <+: [BusyOp.leave false] ∧
        (busyRun ⟨2, true, 0, true, "Running", "x", "Running", "o-/"⟩ pre).counter = 0 ∧
        (busyRun ⟨2, true, 0, true, "Running", "x", "Running", "o-/"⟩ pre).hasError = true :=
  busy_error_sticky.1 ⟨2, true, 0, true, "Running", "x", "Running", "o-/"⟩
    [BusyOp.leave false] rfl (by decide)

theorem busyRun_counter_nonneg_aux : ∀ (ops : List BusyOp) (st : BusyState),
    0 ≤ st.counter → 0 ≤ (busyRun st ops).counter := by
  intro ops
  induction ops with
  | nil =>
    intro st h
    exact h
  | cons op rest ih =>
    intro st h
    cases op with
    | enter s =>
      apply ih
      show 0 ≤ (enterBusy st s).counter
      rw [enterBusy_counter]
      omega
    | leave b =>
      apply ih
      show 0 ≤ (leaveBusy st b).counter
      rw [leaveBusy_counter]
      split <;> omega

/-- C5: starting from the initial state, no call sequence — in
particular none with more leaves than enters — ever drives the busy
counter negative, and a single leave decrements the counter exactly once
when it is positive and not at all otherwise. -/
theorem busy_counter_never_negative :
    (∀ ops : List BusyOp, 0 ≤ (busyRun initBusy ops).counter)
    ∧ ∀ (st : BusyState) (b : Bool),
        (busyStep st (.leave b)).counter
          = if 0 < st.counter then st.counter - 1 else st.counter := by
  constructor
  · intro ops
    exact busyRun_counter_nonneg_aux ops initBusy (by decide)
  · intro st b
    exact leaveBusy_counter st b

/-! ## Stage Classifier theorems -/

theorem string_data_append (a b : String) : (a ++ b).data = a.data ++ b.data := by
  cases a
  cases b
  rfl

theorem stageScan_eq_find (table : List (String × String)) (line : String) :
    stageScan table line = (table.find? (fun p => pyContains line p.1)).map Prod.snd := by
  induction table with
  | nil => rfl
  | cons p rest ih =>
    cases p with
    | mk token stage =>
      by_cases h : pyContains line token = true
      · simp [stageScan, h]
      · simp [stageScan, h, ih]

/-- C8: a line starting with the `"STEP: "` marker classifies to the
trimmed remainder after the marker; any other line classifies to the
label of the first table entry, in table position order, whose token
occurs in the line (`List.find?`), or to nothing; `STEP: Clustering`
gives `Clustering` and an unmatched line gives nothing. -/
theorem update_stage_classifier :
    (∀ rest : String, updateStageFromLog (stepMarker ++ rest) = some (pyStrip rest))
    ∧ (∀ line : String, pyStartsWith line stepMarker = false →
        updateStageFromLog line = (stageMap.find? (fun p => pyContains line p.1)).map Prod.snd)
    ∧ updateStageFromLog "STEP: Clustering" = some "Clustering"
    ∧ updateStageFromLog "irrelevant line" = none := by
  refine ⟨?_, ?_, by decide, by decide⟩
  · intro rest
    have hpre : pyStartsWith (stepMarker ++ rest) stepMarker = true := by
      unfold pyStartsWith
      rw [string_data_append]
      exact List.isPrefixOf_iff_prefix.mpr (List.prefix_append _ _)
    unfold updateStageFromLog
    rw [if_pos hpre]
    rw [string_data_append, List.drop_left]
  · intro line h
    unfold updateStageFromLog
    rw [if_neg (by rw [h]; exact Bool.false_ne_true)]
    exact stageScan_eq_find stageMap line

/-- Witness for C8 at a concrete substring-matched line. -/
theorem update_stage_classifier_witness :
    updateStageFromLog "Saved raw AnnData: foo.h5ad"
      = ((stageMap.find? (fun p => pyContains "Saved raw AnnData: foo.h5ad" p.1)).map
          Prod.snd) :=
  update_stage_classifier.2.1 "Saved raw AnnData: foo.h5ad" (by decide)

/-! ## Output Discovery theorems -/

/-- C2 (amended): a path is returned exactly when it is one of the nine
fixed artifacts resolved under the output directory or the supplied
extra path, and it exists; nothing is returned when nothing exists; the
full fixed set plus the extra path is returned when everything
exists. -/
theorem collect_outputs_spec :
    ∀ (fsExists : String → Bool) (outDir : String) (extra : Option String),
      (∀ p : String,
        p ∈ collectExistingPipelineOutputs fsExists outDir extra ↔
          (p ∈ pipelineArtifactCandidates outDir ∨ p ∈ extra.toList) ∧ fsExists p = true)
      ∧ ((∀ p ∈ pipelineArtifactCandidates outDir ++ extra.toList, fsExists p = false) →
          collectExistingPipelineOutputs fsExists outDir extra = [])
      ∧ ((∀ p ∈ pipelineArtifactCandidates outDir ++ extra.toList, fsExists p = true) →
          collectExistingPipelineOutputs fsExists outDir extra
            = pipelineArtifactCandidates outDir ++ extra.toList) := by
  intro fsExists outDir extra
  refine ⟨?_, ?_, ?_⟩
  · intro p
    unfold collectExistingPipelineOutputs
    rw [List.mem_filter, List.mem_append]
  · intro hall
    unfold collectExistingPipelineOutputs
    apply List.filter_eq_nil_iff.mpr
    intro p hp
    rw [hall p hp]
    exact Bool.false_ne_true
  · intro hall
    unfold collectExistingPipelineOutputs
    apply List.filter_eq_self.mpr
    exact hall

/-- Witness for the amended C2: with everything existing, the result is
the fixed set plus the extra path. -/
theorem collect_outputs_spec_witness :
    collectExistingPipelineOutputs (fun _ => true) "out" (some "k")
      = pipelineArtifactCandidates "out" ++ (some "k").toList :=
  (collect_outputs_spec (fun _ => true) "out" (some "k")).2.2 (by decide)

/-- Counterexample to C2 as stated: the gene-expression dotplot image
and the QC images are not in the fixed overwrite-warning set, so a
filesystem holding exactly those yields the empty list, and even with
everything existing the result differs from the claimed set that
includes the dotplot. -/
theorem collect_outputs_counterexample :
    collectExistingPipelineOutputs
        (fun p => p == "out/plots/gene_expression_dotplot.png"
          || p == "out/xenium_qc/qc_image.png") "out" none = []
    ∧ "out/plots/gene_expression_dotplot.png" ∉ pipelineArtifactCandidates "out"
    ∧ "out/xenium_qc/qc_image.png" ∉ pipelineArtifactCandidates "out"
    ∧ collectExistingPipelineOutputs (fun _ => true) "out" none
        ≠ (claimedArtifactCandidates "out" "qc_image.png").filter (fun _ => true) := by
  decide

/-! ## Overwrite-confirmation theorem -/

/-- C10: with no existing paths, `_confirm_overwrite` answers `True`
immediately and no dialog is presented, whatever the user would have
answered. -/
theorem confirm_overwrite_empty :
    ∀ answer : Bool,
      confirmOverwrite [] answer = ConfirmOutcome.immediateYes
      ∧ confirmResult (confirmOverwrite [] answer) = true := by
  intro answer
  exact ⟨rfl, rfl⟩

/-! ## Recent-Project Registry theorems -/

/-- C9 (amended): provided the prior registry has no duplicate
(data_dir, out_dir) pairs, an upsert keeps it duplicate-free, preserves
every entry with a differing pair, introduces nothing beyond the prior
entries and the new one, and appends the new entry last; upserting the
same pair twice leaves exactly one entry bearing the second
timestamp. -/
theorem update_recent_upsert :
    (∀ (projects : List RecentProject) (dataDir outDir : String)
        (k : Option String) (now : String),
      dataDir ≠ "" → outDir ≠ "" →
      projects.Pairwise (fun p q => ¬ samePair p q) →
      (updateRecent projects dataDir outDir k now).Pairwise (fun p q => ¬ samePair p q)
      ∧ (∀ p ∈ projects, ¬ (p.data_dir = dataDir ∧ p.out_dir = outDir) →
          p ∈ updateRecent projects dataDir outDir k now)
      ∧ (∀ p ∈ updateRecent projects dataDir outDir k now,
          p ∈ projects ∨ p = ⟨dataDir, outDir, k, now⟩)
      ∧ (updateRecent projects dataDir outDir k now).getLast?
          = some ⟨dataDir, outDir, k, now⟩)
    ∧ updateRecent (updateRecent [] "d1" "o1" none "t1") "d1" "o1" none "t2"
        = [⟨"d1", "o1", none, "t2"⟩] := by
  constructor
  · intro projects dataDir outDir k now hd ho hpw
    have hguard : ¬ (dataDir = "" ∨ outDir = "") := by
      intro hcon
      rcases hcon with hcon | hcon
      · exact hd hcon
      · exact ho hcon
    unfold updateRecent
    rw [if_neg hguard]
    refine ⟨?_, ?_, ?_, ?_⟩
    · rw [List.pairwise_append]
      refine ⟨hpw.sublist (List.filter_sublist _), List.pairwise_singleton _ _, ?_⟩
      intro a ha b hb
      rw [List.mem_singleton] at hb
      subst hb
      have hnp := (List.mem_filter.mp ha).2
      intro hsp
      rcases hsp with ⟨h1, h2⟩
      rw [h1, h2] at hnp
      simp at hnp
    · intro p hp hne
      apply List.mem_append_left
      apply List.mem_filter.mpr
      refine ⟨hp, ?_⟩
      simp only [Bool.not_eq_true']
      rw [Bool.and_eq_false_iff]
      by_cases h1 : p.data_dir = dataDir
      · right
        rw [beq_eq_false_iff_ne]
        intro h2
        exact hne ⟨h1, h2⟩
      · left
        rw [beq_eq_false_iff_ne]
        exact h1
    · intro p hp
      rcases List.mem_append.mp hp with hp | hp
      · left
        exact (List.mem_filter.mp hp).1
      · right
        rw [List.mem_singleton] at hp
        exact hp
    · exact List.getLast?_concat _
  · decide

/-- Witness for the amended C9 on a concrete duplicate-free registry. -/
theorem update_recent_upsert_witness :
    (updateRecent [⟨"da", "oa", none, "ta"⟩] "d1" "o1" none "t1").getLast?
      = some ⟨"d1", "o1", none, "t1"⟩ :=
  ((update_recent_upsert.1 [⟨"da", "oa", none, "ta"⟩] "d1" "o1" none "t1"
    (by decide) (by decide) (by decide)).2.2.2)

/-- Counterexample to C9 as stated: a prior registry already holding two
entries with an identical pair different from the upserted pair keeps
both, so the resulting registry is not duplicate-free for arbitrary
prior contents. -/
theorem update_recent_counterexample :
    updateRecent [⟨"d2", "o2", none, "t0"⟩, ⟨"d2", "o2", none, "t0"⟩] "d1" "o1" none "t1"
      = [⟨"d2", "o2", none, "t0"⟩, ⟨"d2", "o2", none, "t0"⟩, ⟨"d1", "o1", none, "t1"⟩]
    ∧ ¬ (updateRecent [⟨"d2", "o2", none, "t0"⟩, ⟨"d2", "o2", none, "t0"⟩]
          "d1" "o1" none "t1").Pairwise (fun p q => ¬ samePair p q) := by
  decide

/-! ## Job Runner spawn-failure handling -/

/-- C3 evidence: both process launchers install handlers only for the
output-ready and finished signals; neither installs a handler for the
error signal `QProcess` raises when spawning fails, which is the only
notification a process that never started emits. -/
theorem job_runner_no_spawn_failure_handler :
    ProcSignal.errorOccurred ∉ runPipelineConnections
    ∧ ProcSignal.errorOccurred ∉ runVisualProcessConnections
    ∧ ProcSignal.finished ∈ runPipelineConnections
    ∧ ProcSignal.finished ∈ runVisualProcessConnections := by
  decide

end InSituCore
